import Mathlib

/-!
Verification of the `erreport` error-report library (`src/lib.rs`).

The Rust `Report` struct stores a package name, package version, file,
line and a boxed `dyn Error` cause.  The boxed cause is either another
`Report` (recognised at runtime by `downcast_ref::<Report>`) or a
terminal error value.  We embed the box as a tagged sum `ErrBox` with
those two cases; a terminal error is modelled by its two renderings
(`Display` and `Debug` forms).
-/

/-- A terminal (non-`Report`) error value, modelled by its `Display`
form (`display`) and its `Debug` form (`debug`). -/
structure TermErr where
  display : String
  debug : String
deriving DecidableEq, Repr

mutual

/-- Rust `struct Report { pkg_name, pkg_version, file, line, err }`. -/
inductive Report : Type where
  | mk (pkg_name pkg_version file : String) (line : Nat) (err : ErrBox) : Report

/-- The boxed cause `err : Box<dyn Error>`: either another `Report`
(the case where `downcast_ref::<Report>` succeeds) or a terminal error. -/
inductive ErrBox : Type where
  | report (r : Report) : ErrBox
  | terminal (e : TermErr) : ErrBox

end

def Report.pkg_name : Report → String
  | .mk n _ _ _ _ => n

def Report.pkg_version : Report → String
  | .mk _ v _ _ _ => v

def Report.file : Report → String
  | .mk _ _ f _ _ => f

def Report.line : Report → Nat
  | .mk _ _ _ l _ => l

def Report.err : Report → ErrBox
  | .mk _ _ _ _ e => e

/-- Rust `impl Error for Report { fn source(&self) }`: if the boxed
cause downcasts to a `Report`, recurse into it; otherwise return the
cause itself. -/
def Report.source : Report → Option TermErr
  | .mk _ _ _ _ (.report r) => r.source
  | .mk _ _ _ _ (.terminal e) => some e

/-- Rust `Report::to_string(&self, is_debug: bool, index: u16)`.
The `u16` index is modelled as the `Nat` value it carries, with the
source's `index + 1` computed modulo `2 ^ 16 = 65536`: in release mode
(the mode the crate advertises) `u16` addition wraps, so the index
returns to `0` after 65536 consecutive same-identity frames and the
wrapped frame is printed with a fresh tag.  When the cause downcasts to
a `Report` with the same `pkg_name` and `pkg_version`, recurse with the
incremented index; otherwise format the cause directly
(`format!("\x7b:?\x7d", self.err)` resp. `self.err.to_string()`, which
for a nested `Report` re-enters `to_string` at index `0` through its
`Debug`/`Display` impl, and for a terminal error yields its debug resp.
display form).  At index `0` the output is prefixed with the
`"\x7bname@version\x7d "` tag. -/
def Report.to_string : Report → Bool → Nat → String
  | .mk name version file line err, is_debug, index =>
    let err_str : String :=
      match err with
      | .report inner =>
        if inner.pkg_name = name ∧ inner.pkg_version = version then
          inner.to_string is_debug ((index + 1) % 65536)
        else
          inner.to_string is_debug 0
      | .terminal e => if is_debug then e.debug else e.display
    match index with
    | 0 =>
      "\x7b" ++ name ++ "@" ++ version ++ "\x7d " ++ file ++ ":" ++
        Nat.repr line ++ " -> " ++ err_str
    | _ + 1 => file ++ ":" ++ Nat.repr line ++ " -> " ++ err_str

/-- The static data one wrap site contributes: the component identity
(`CARGO_PKG_NAME`, `CARGO_PKG_VERSION`) and the call site (file, line). -/
structure Frame where
  pkg_name : String
  pkg_version : String
  file : String
  line : Nat
deriving DecidableEq, Repr

/-- Wrap a terminal error once per frame, outermost frame first.
`wrapChain fr rest t` is the chain of depth `1 + rest.length`. -/
def wrapChain : Frame → List Frame → TermErr → Report
  | fr, [], t => .mk fr.pkg_name fr.pkg_version fr.file fr.line (.terminal t)
  | fr, g :: rest, t =>
    .mk fr.pkg_name fr.pkg_version fr.file fr.line (.report (wrapChain g rest t))

/-- The compile-time context of one `to_report` call site: component
identity, `CARGO_MANIFEST_DIR`, and the captured caller location. -/
structure WrapCtx where
  pkg_name : String
  pkg_version : String
  manifest_dir : String
  caller_file : String
  caller_line : Nat

/-- Rust `loc.file().get(env!("CARGO_MANIFEST_DIR").len() + 1..).unwrap_or(loc.file())`:
drop the first `manifest_dir.length + 1` characters when the path is
long enough, else keep the full path. -/
def recordedFile (manifest_dir file : String) : String :=
  if manifest_dir.length + 1 ≤ file.length then
    String.mk (file.toList.drop (manifest_dir.length + 1))
  else file

/-- Rust `ToReport::to_report` from the generated trait impl: `Ok`
passes through unchanged; `Err` is wrapped in a single new `Report`
frame recording the call site. -/
def to_report {α : Type} (ctx : WrapCtx) : Except ErrBox α → Except Report α
  | .ok t => .ok t
  | .error err =>
    .error (Report.mk ctx.pkg_name ctx.pkg_version
      (recordedFile ctx.manifest_dir ctx.caller_file) ctx.caller_line err)

/-! ### Closed form of the renderer -/

/-- The component tag `"\x7bname@version\x7d "` a frame contributes. -/
def tagStr (fr : Frame) : String :=
  "\x7b" ++ fr.pkg_name ++ "@" ++ fr.pkg_version ++ "\x7d "

/-- The location part `"file:line -> "` a frame contributes. -/
def frameStr (fr : Frame) : String :=
  fr.file ++ ":" ++ Nat.repr fr.line ++ " -> "

/-- The text a terminal error contributes: debug form in verbose mode,
display form otherwise. -/
def termStr (t : TermErr) (is_debug : Bool) : String :=
  if is_debug then t.debug else t.display

/-- Closed form of the rendering of the non-outermost frames, carrying
the parent frame's `u16` render index `ix`: a frame whose identity
differs from its parent's restarts at index `0` and is tagged, while a
same-identity frame continues with the incremented (wrapping) index and
is tagged exactly when that index wraps to `0`. -/
def renderTail (prevName prevVer : String) (ix : Nat) :
    List Frame → TermErr → Bool → String
  | [], t, dbg => termStr t dbg
  | g :: rest, t, dbg =>
    if g.pkg_name = prevName ∧ g.pkg_version = prevVer then
      (if (ix + 1) % 65536 = 0 then tagStr g else "") ++ frameStr g ++
        renderTail g.pkg_name g.pkg_version ((ix + 1) % 65536) rest t dbg
    else
      tagStr g ++ frameStr g ++ renderTail g.pkg_name g.pkg_version 0 rest t dbg

theorem renderTail_nil (pn pv : String) (ix : Nat) (t : TermErr) (dbg : Bool) :
    renderTail pn pv ix [] t dbg = termStr t dbg := rfl

theorem renderTail_cons (pn pv : String) (ix : Nat) (g : Frame) (rest : List Frame)
    (t : TermErr) (dbg : Bool) :
    renderTail pn pv ix (g :: rest) t dbg =
      if g.pkg_name = pn ∧ g.pkg_version = pv then
        (if (ix + 1) % 65536 = 0 then tagStr g else "") ++ frameStr g ++
          renderTail g.pkg_name g.pkg_version ((ix + 1) % 65536) rest t dbg
      else
        tagStr g ++ frameStr g ++ renderTail g.pkg_name g.pkg_version 0 rest t dbg := rfl

theorem wrapChain_pkg_name (g : Frame) (rest : List Frame) (t : TermErr) :
    (wrapChain g rest t).pkg_name = g.pkg_name := by
  cases rest <;> rfl

theorem wrapChain_pkg_version (g : Frame) (rest : List Frame) (t : TermErr) :
    (wrapChain g rest t).pkg_version = g.pkg_version := by
  cases rest <;> rfl

/-- Master structure theorem: rendering a chain yields the outermost
frame (tagged iff `index = 0`) followed by `renderTail`, which tags a
frame at each identity transition and at each wrap of the `u16` index. -/
theorem to_string_wrapChain (rest : List Frame) (fr : Frame) (t : TermErr)
    (dbg : Bool) (n : Nat) :
    (wrapChain fr rest t).to_string dbg n =
      (if n = 0 then tagStr fr else "") ++ frameStr fr ++
        renderTail fr.pkg_name fr.pkg_version n rest t dbg := by
  induction rest generalizing fr n with
  | nil =>
    cases n <;>
      simp [wrapChain, Report.to_string, renderTail, tagStr, frameStr, termStr,
        String.append_assoc]
  | cons g rest ih =>
    by_cases h : g.pkg_name = fr.pkg_name ∧ g.pkg_version = fr.pkg_version
    · cases n <;>
        simp [wrapChain, Report.to_string, wrapChain_pkg_name, wrapChain_pkg_version,
          h, ih, renderTail, tagStr, frameStr, String.append_assoc]
    · cases n <;>
        simp [wrapChain, Report.to_string, wrapChain_pkg_name, wrapChain_pkg_version,
          h, ih, renderTail, tagStr, frameStr, String.append_assoc]

/-! ### Root-cause lookup -/

/-- C1: wrapping a terminal failure N ≥ 1 times in Report frames and
asking for the root cause returns exactly that terminal failure,
regardless of the depth and of which components created the frames. -/
theorem source_of_wrapChain (fr : Frame) (rest : List Frame) (t : TermErr) :
    (wrapChain fr rest t).source = some t := by
  induction rest generalizing fr with
  | nil => rfl
  | cons g rest ih => simpa [wrapChain, Report.source] using ih g

theorem source_isSome_aux : ∀ r : Report, (Report.source r).isSome = true
  | .mk _ _ _ _ (.report r) => source_isSome_aux r
  | .mk _ _ _ _ (.terminal _) => rfl

/-- C9: `Report::source` never returns `None`: on every chain it
returns `Some` of an underlying error. -/
theorem source_never_none (r : Report) : (Report.source r).isSome = true :=
  source_isSome_aux r

/-! ### The wrap operation -/

/-- C4: `to_report` passes a success value through unchanged, and on a
failure it always succeeds in producing a single new frame that takes
ownership of the original failure as its cause; it returns `Err`
exactly when the input was `Err`. -/
theorem to_report_passthrough {α : Type} (ctx : WrapCtx) :
    (∀ t : α, to_report ctx (Except.ok t) = Except.ok t) ∧
    (∀ e : ErrBox, ∃ rep : Report,
      @to_report α ctx (Except.error e) = Except.error rep ∧
      rep.err = e ∧ rep.pkg_name = ctx.pkg_name ∧ rep.pkg_version = ctx.pkg_version) ∧
    (∀ r : Except ErrBox α, (to_report ctx r).isOk = r.isOk) := by
  refine ⟨fun t => rfl, fun e => ⟨_, rfl, rfl, rfl, rfl⟩, fun r => ?_⟩
  cases r <;> rfl

/-! ### Rendering: component tags -/

/-- C2: an outer frame from component `A@v1` wrapping an inner frame
from a different component `B@v2` wrapping a terminal error is rendered
tersely as `"\x7bA@v1\x7d f1:l1 -> \x7bB@v2\x7d f2:l2 -> y"`: a fresh
tag is printed exactly at the component-identity transition. -/
theorem cross_component_render (fr1 fr2 : Frame) (t : TermErr)
    (h : ¬(fr2.pkg_name = fr1.pkg_name ∧ fr2.pkg_version = fr1.pkg_version)) :
    (wrapChain fr1 [fr2] t).to_string false 0 =
      "\x7b" ++ fr1.pkg_name ++ "@" ++ fr1.pkg_version ++ "\x7d " ++ fr1.file ++ ":" ++
        Nat.repr fr1.line ++ " -> " ++
      ("\x7b" ++ fr2.pkg_name ++ "@" ++ fr2.pkg_version ++ "\x7d " ++ fr2.file ++ ":" ++
        Nat.repr fr2.line ++ " -> " ++ t.display) := by
  simp [to_string_wrapChain, renderTail, h, tagStr, frameStr, termStr,
    String.append_assoc]

theorem cross_component_render_witness :
    (¬(("compB" : String) = "compA" ∧ ("2.0" : String) = "1.0")) ∧
    (wrapChain ⟨"compA", "1.0", "a.rs", 10⟩ [⟨"compB", "2.0", "b.rs", 20⟩]
        ⟨"y", "ydbg"⟩).to_string false 0 =
      "\x7bcompA@1.0\x7d a.rs:10 -> \x7bcompB@2.0\x7d b.rs:20 -> y" := by
  refine ⟨by decide, ?_⟩
  rw [cross_component_render ⟨"compA", "1.0", "a.rs", 10⟩ ⟨"compB", "2.0", "b.rs", 20⟩
    ⟨"y", "ydbg"⟩ (by decide)]
  rfl

/-- C10: component identity in the renderer is the pair
(`pkg_name`, `pkg_version`): consecutive frames are collapsed under one
tag exactly when both fields agree; a nested frame with the same name
but a different version is rendered with its own tag. -/
theorem component_identity_is_pair (fr1 fr2 : Frame) (t : TermErr) (dbg : Bool) :
    (wrapChain fr1 [fr2] t).to_string dbg 0 =
      tagStr fr1 ++ frameStr fr1 ++
        ((if fr2.pkg_name = fr1.pkg_name ∧ fr2.pkg_version = fr1.pkg_version
          then "" else tagStr fr2) ++ frameStr fr2 ++ termStr t dbg) := by
  by_cases h : fr2.pkg_name = fr1.pkg_name ∧ fr2.pkg_version = fr1.pkg_version <;>
    simp [to_string_wrapChain, renderTail, h, String.append_assoc]

/-! ### Rendering: debug vs display of the terminal error -/

theorem renderTail_split (pn pv : String) (ix : Nat) (rest : List Frame) (t : TermErr) :
    ∃ q : String, ∀ dbg : Bool, renderTail pn pv ix rest t dbg = q ++ termStr t dbg := by
  induction rest generalizing pn pv ix with
  | nil => exact ⟨"", fun dbg => rfl⟩
  | cons g rest ih =>
    by_cases h : g.pkg_name = pn ∧ g.pkg_version = pv
    · obtain ⟨q, hq⟩ := ih pn pv ((ix + 1) % 65536)
      refine ⟨(if (ix + 1) % 65536 = 0 then tagStr g else "") ++ (frameStr g ++ q),
        fun dbg => ?_⟩
      rw [renderTail_cons, if_pos h, h.1, h.2, hq dbg]
      simp [String.append_assoc]
    · obtain ⟨q, hq⟩ := ih g.pkg_name g.pkg_version 0
      refine ⟨tagStr g ++ (frameStr g ++ q), fun dbg => ?_⟩
      rw [renderTail_cons, if_neg h, hq dbg]
      simp [String.append_assoc]

/-- C6: for every chain the verbose render ends in the terminal
error's debug form and the terse render ends in its display form, with
an identical mode-independent prefix; in particular, for a terminal
error with debug form `"Kind \x7b code: 5 \x7d"` and display form
`"io failure"`, the verbose render contains the debug form and not the
display form. -/
theorem verbose_uses_debug_form (fr : Frame) (rest : List Frame) (t : TermErr) :
    (∃ p : String,
      (wrapChain fr rest t).to_string true 0 = p ++ t.debug ∧
      (wrapChain fr rest t).to_string false 0 = p ++ t.display) ∧
    List.IsInfix "Kind \x7b code: 5 \x7d".toList
      ((wrapChain ⟨"compA", "1.0", "a.rs", 10⟩ []
        ⟨"io failure", "Kind \x7b code: 5 \x7d"⟩).to_string true 0).toList ∧
    ¬ List.IsInfix "io failure".toList
      ((wrapChain ⟨"compA", "1.0", "a.rs", 10⟩ []
        ⟨"io failure", "Kind \x7b code: 5 \x7d"⟩).to_string true 0).toList := by
  refine ⟨?_, by decide, by decide⟩
  obtain ⟨q, hq⟩ := renderTail_split fr.pkg_name fr.pkg_version 0 rest t
  refine ⟨tagStr fr ++ (frameStr fr ++ q), ?_, ?_⟩ <;>
    simp [to_string_wrapChain, hq, termStr, String.append_assoc]

/-! ### Character-counting machinery -/

theorem toList_append_str (s t : String) : (s ++ t).toList = s.toList ++ t.toList := by
  simp [String.toList, String.data_append]

theorem digitChar_isDigit (m : Nat) (h : m < 10) : (Nat.digitChar m).isDigit = true := by
  interval_cases m <;> decide

theorem toDigitsCore_all_digits (f : Nat) :
    ∀ (n : Nat) (acc : List Char), (∀ c ∈ acc, c.isDigit = true) →
      ∀ c ∈ Nat.toDigitsCore 10 f n acc, c.isDigit = true := by
  induction f with
  | zero => intro n acc hacc c hc; exact hacc c hc
  | succ f ih =>
    intro n acc hacc c hc
    simp only [Nat.toDigitsCore] at hc
    have hd : ∀ d ∈ Nat.digitChar (n % 10) :: acc, d.isDigit = true := by
      intro d hdm
      rcases List.mem_cons.mp hdm with rfl | hdm
      · exact digitChar_isDigit _ (Nat.mod_lt _ (by norm_num))
      · exact hacc d hdm
    split at hc
    · exact hd c hc
    · exact ih _ _ hd c hc

theorem repr_all_digits (n : Nat) : ∀ c ∈ (Nat.repr n).toList, c.isDigit = true := by
  intro c hc
  exact toDigitsCore_all_digits (n + 1) n [] (by simp) c hc

/-- Number of occurrences of a character in a string. -/
def countChar (c : Char) (s : String) : Nat := s.toList.count c

theorem countChar_append (c : Char) (s t : String) :
    countChar c (s ++ t) = countChar c s + countChar c t := by
  simp [countChar, String.toList, String.data_append, List.count_append]

theorem countChar_repr (c : Char) (h : c.isDigit = false) (n : Nat) :
    countChar c (Nat.repr n) = 0 := by
  rw [countChar, List.count_eq_zero]
  intro hc
  rw [repr_all_digits n c hc] at h
  exact Bool.noConfusion h

/-! ### Same-component chains (single tag) -/

/-- Location parts contributed by a list of inner frames. -/
def framesStr : List Frame → String
  | [] => ""
  | g :: rest => frameStr g ++ framesStr rest

theorem empty_append_str (s : String) : "" ++ s = s := rfl

/-- Peeling a same-identity run that keeps the `u16` index below its
modulus: the run's frames are rendered untagged and the index advances
by the run's length. -/
theorem renderTail_append_no_wrap (pn pv : String) (ix : Nat) (l1 l2 : List Frame)
    (t : TermErr) (dbg : Bool)
    (hhom : ∀ g ∈ l1, g.pkg_name = pn ∧ g.pkg_version = pv)
    (hix : ix + l1.length < 65536) :
    renderTail pn pv ix (l1 ++ l2) t dbg =
      framesStr l1 ++ renderTail pn pv (ix + l1.length) l2 t dbg := by
  induction l1 generalizing ix with
  | nil => simp [framesStr, empty_append_str]
  | cons g l1 ih =>
    obtain ⟨h1, h2⟩ := hhom g (List.mem_cons_self g l1)
    have hrest : ∀ g' ∈ l1, g'.pkg_name = pn ∧ g'.pkg_version = pv := fun g' hg' =>
      hhom g' (List.mem_cons_of_mem g hg')
    have hlen : ix + 1 + l1.length < 65536 := by
      rw [List.length_cons] at hix
      omega
    have hmod : (ix + 1) % 65536 = ix + 1 := Nat.mod_eq_of_lt (by omega)
    have harith : ix + 1 + l1.length = ix + (g :: l1).length := by
      rw [List.length_cons]
      omega
    rw [List.cons_append, renderTail_cons, if_pos ⟨h1, h2⟩, hmod,
      if_neg (Nat.succ_ne_zero ix), h1, h2, ih (ix + 1) hrest hlen, harith,
      framesStr, empty_append_str, String.append_assoc]

/-- A same-identity run whose length keeps the `u16` index from
wrapping renders with no inner tags. -/
theorem renderTail_no_wrap (pn pv : String) (ix : Nat) (rest : List Frame)
    (t : TermErr) (dbg : Bool)
    (hhom : ∀ g ∈ rest, g.pkg_name = pn ∧ g.pkg_version = pv)
    (hix : ix + rest.length < 65536) :
    renderTail pn pv ix rest t dbg = framesStr rest ++ termStr t dbg := by
  have h := renderTail_append_no_wrap pn pv ix rest [] t dbg hhom hix
  rw [List.append_nil] at h
  rw [h, renderTail_nil]

theorem countChar_frameStr (c : Char) (hdig : c.isDigit = false) (g : Frame)
    (hf : countChar c g.file = 0) (hcolon : countChar c ":" = 0)
    (harrow : countChar c " -> " = 0) :
    countChar c (frameStr g) = 0 := by
  simp [frameStr, countChar_append, hf, hcolon, harrow, countChar_repr c hdig]

theorem countChar_framesStr (c : Char) (hdig : c.isDigit = false) (rest : List Frame)
    (hf : ∀ g ∈ rest, countChar c g.file = 0) (hcolon : countChar c ":" = 0)
    (harrow : countChar c " -> " = 0) :
    countChar c (framesStr rest) = 0 := by
  induction rest with
  | nil => rfl
  | cons g rest ih =>
    rw [framesStr, countChar_append,
      countChar_frameStr c hdig g (hf g (List.mem_cons_self g rest)) hcolon harrow,
      ih fun g' hg' => hf g' (List.mem_cons_of_mem g hg')]

/-- C3 (amended): a chain whose frames all carry the same component
identity and whose depth keeps the `u16` render index from wrapping
(at most 65536 frames) is rendered tersely as the single tag of the
outermost frame followed by one `"file:line -> "` per frame and the
terminal display form, and the output contains exactly one opening tag
brace; at depth 65537 the wrapped index prints a second tag. -/
theorem same_component_render (fr : Frame) (rest : List Frame) (t : TermErr)
    (hdepth : rest.length < 65536)
    (hhom : ∀ g ∈ rest, g.pkg_name = fr.pkg_name ∧ g.pkg_version = fr.pkg_version)
    (hn : countChar '\x7b' fr.pkg_name = 0) (hv : countChar '\x7b' fr.pkg_version = 0)
    (hf : countChar '\x7b' fr.file = 0) (ht : countChar '\x7b' t.display = 0)
    (hrest : ∀ g ∈ rest, countChar '\x7b' g.file = 0) :
    (wrapChain fr rest t).to_string false 0 =
      tagStr fr ++ (frameStr fr ++ (framesStr rest ++ t.display)) ∧
    countChar '\x7b' ((wrapChain fr rest t).to_string false 0) = 1 := by
  have heq : (wrapChain fr rest t).to_string false 0 =
      tagStr fr ++ (frameStr fr ++ (framesStr rest ++ t.display)) := by
    rw [to_string_wrapChain,
      renderTail_no_wrap fr.pkg_name fr.pkg_version 0 rest t false hhom
        (by omega)]
    simp [termStr, String.append_assoc]
  refine ⟨heq, ?_⟩
  rw [heq]
  have htag : countChar '\x7b' (tagStr fr) = 1 := by
    simp [tagStr, countChar_append, hn, hv]
    rfl
  rw [countChar_append, countChar_append, countChar_append, htag,
    countChar_frameStr '\x7b' (by decide) fr hf (by rfl) (by rfl),
    countChar_framesStr '\x7b' (by decide) rest hrest (by rfl) (by rfl), ht]

theorem same_component_render_witness :
    (([(⟨"compA", "1.0", "b.rs", 20⟩ : Frame)] : List Frame).length < 65536) ∧
    (∀ g ∈ ([⟨"compA", "1.0", "b.rs", 20⟩] : List Frame),
        g.pkg_name = "compA" ∧ g.pkg_version = "1.0") ∧
    countChar '\x7b' ((wrapChain ⟨"compA", "1.0", "a.rs", 10⟩
        [⟨"compA", "1.0", "b.rs", 20⟩] ⟨"x", "xd"⟩).to_string false 0) = 1 :=
  ⟨by decide, by decide, (same_component_render ⟨"compA", "1.0", "a.rs", 10⟩
      [⟨"compA", "1.0", "b.rs", 20⟩] ⟨"x", "xd"⟩ (by decide) (by decide) (by decide)
      (by decide) (by decide) (by decide) (by decide)).2⟩

/-- Counterexample to the universal single-tag claim: a same-component
chain of depth 65537 makes the `u16` render index of the release-mode
code wrap to `0` at the deepest frame, which is therefore printed with
a second `"\x7bcompA@1.0\x7d "` tag — the terse render contains two
opening tag braces, not one. -/
theorem single_tag_counterexample :
    countChar '\x7b' ((wrapChain ⟨"compA", "1.0", "a.rs", 10⟩
        (List.replicate 65536 ⟨"compA", "1.0", "a.rs", 10⟩)
        ⟨"x", "xd"⟩).to_string false 0) = 2 ∧ (2 : Nat) ≠ 1 := by
  refine ⟨?_, by decide⟩
  have hhom : ∀ g ∈ List.replicate 65535 (⟨"compA", "1.0", "a.rs", 10⟩ : Frame),
      g.pkg_name = "compA" ∧ g.pkg_version = "1.0" := by
    intro g hg
    rw [List.eq_of_mem_replicate hg]
    exact ⟨rfl, rfl⟩
  have hsplit : List.replicate 65536 (⟨"compA", "1.0", "a.rs", 10⟩ : Frame) =
      List.replicate 65535 ⟨"compA", "1.0", "a.rs", 10⟩ ++
        [⟨"compA", "1.0", "a.rs", 10⟩] := by
    rw [show (65536 : Nat) = 65535 + 1 from by norm_num, List.replicate_succ']
  have hix : (0 : Nat) + (List.replicate 65535
      (⟨"compA", "1.0", "a.rs", 10⟩ : Frame)).length < 65536 := by
    rw [List.length_replicate]
    norm_num
  have hlast : renderTail "compA" "1.0"
      (0 + (List.replicate 65535 (⟨"compA", "1.0", "a.rs", 10⟩ : Frame)).length)
      [⟨"compA", "1.0", "a.rs", 10⟩] ⟨"x", "xd"⟩ false =
      tagStr ⟨"compA", "1.0", "a.rs", 10⟩ ++
        (frameStr ⟨"compA", "1.0", "a.rs", 10⟩ ++ termStr ⟨"x", "xd"⟩ false) := by
    rw [List.length_replicate]
    simp [renderTail, String.append_assoc]
  have hren : (wrapChain ⟨"compA", "1.0", "a.rs", 10⟩
      (List.replicate 65536 ⟨"compA", "1.0", "a.rs", 10⟩)
      ⟨"x", "xd"⟩).to_string false 0 =
      tagStr ⟨"compA", "1.0", "a.rs", 10⟩ ++
        (frameStr ⟨"compA", "1.0", "a.rs", 10⟩ ++
          (framesStr (List.replicate 65535 ⟨"compA", "1.0", "a.rs", 10⟩) ++
            (tagStr ⟨"compA", "1.0", "a.rs", 10⟩ ++
              (frameStr ⟨"compA", "1.0", "a.rs", 10⟩ ++
                termStr ⟨"x", "xd"⟩ false)))) := by
    rw [to_string_wrapChain, if_pos rfl, hsplit]
    rw [renderTail_append_no_wrap "compA" "1.0" 0 _ _ _ false hhom hix, hlast]
    simp only [String.append_assoc]
  rw [hren, countChar_append, countChar_append, countChar_append, countChar_append,
    countChar_append,
    countChar_frameStr '\x7b' (by decide) ⟨"compA", "1.0", "a.rs", 10⟩ (by decide)
      (by rfl) (by rfl),
    countChar_framesStr '\x7b' (by decide)
      (List.replicate 65535 ⟨"compA", "1.0", "a.rs", 10⟩)
      (fun g hg => by rw [List.eq_of_mem_replicate hg]; decide) (by rfl) (by rfl)]
  decide

/-! ### Counting arrow separators -/

/-- Number of (non-overlapping, leftmost) occurrences of `"->"` in a
character list. -/
def countArrows : List Char → Nat
  | [] => 0
  | [_] => 0
  | c :: c2 :: rest =>
    if c = '-' ∧ c2 = '>' then countArrows rest + 1 else countArrows (c2 :: rest)

theorem countArrows_cons_of_ne (c : Char) (l : List Char) (h : c ≠ '-') :
    countArrows (c :: l) = countArrows l := by
  cases l with
  | nil => rfl
  | cons c2 l' =>
    show (if c = '-' ∧ c2 = '>' then countArrows l' + 1 else countArrows (c2 :: l')) = _
    rw [if_neg]
    intro hc
    exact h hc.1

theorem countArrows_arrow (l : List Char) :
    countArrows ('-' :: '>' :: l) = countArrows l + 1 := by
  show (if ('-' : Char) = '-' ∧ ('>' : Char) = '>' then countArrows l + 1 else _) = _
  rw [if_pos ⟨rfl, rfl⟩]

theorem countArrows_append_of_no_dash (l1 l2 : List Char) (h : ∀ c ∈ l1, c ≠ '-') :
    countArrows (l1 ++ l2) = countArrows l2 := by
  induction l1 with
  | nil => rfl
  | cons c l1 ih =>
    rw [List.cons_append, countArrows_cons_of_ne c _ (h c (List.mem_cons_self c l1)),
      ih fun c' hc' => h c' (List.mem_cons_of_mem c hc')]

/-- A string containing no `'-'` character. -/
abbrev dashFree (s : String) : Prop := ∀ c ∈ s.toList, c ≠ '-'

theorem countArrows_str_append (s : String) (l : List Char) (h : dashFree s) :
    countArrows (s.toList ++ l) = countArrows l :=
  countArrows_append_of_no_dash s.toList l h

theorem dashFree_append (s t : String) (hs : dashFree s) (ht : dashFree t) :
    dashFree (s ++ t) := by
  intro c hc
  rw [toList_append_str] at hc
  rcases List.mem_append.mp hc with h | h
  · exact hs c h
  · exact ht c h

theorem dashFree_repr (n : Nat) : dashFree (Nat.repr n) := by
  intro c hc hdash
  have := repr_all_digits n c hc
  rw [hdash] at this
  exact Bool.noConfusion this

theorem dashFree_tagStr (g : Frame) (hn : dashFree g.pkg_name)
    (hv : dashFree g.pkg_version) : dashFree (tagStr g) := by
  refine dashFree_append _ _ (dashFree_append _ _ (dashFree_append _ _
    (dashFree_append _ _ ?_ hn) ?_) hv) ?_ <;> decide

theorem countArrows_frameStr (g : Frame) (l : List Char) (hf : dashFree g.file) :
    countArrows ((frameStr g).toList ++ l) = countArrows l + 1 := by
  have h1 : (frameStr g).toList =
      (g.file ++ ":" ++ Nat.repr g.line).toList ++ (' ' :: '-' :: '>' :: [' ']) := by
    rw [frameStr, toList_append_str]
    rfl
  rw [h1, List.append_assoc,
    countArrows_str_append _ _ (dashFree_append _ _ (dashFree_append _ _ hf (by decide))
      (dashFree_repr g.line))]
  rw [show ((' ' :: '-' :: '>' :: [' ']) ++ l) = ' ' :: '-' :: '>' :: ' ' :: l from rfl,
    countArrows_cons_of_ne ' ' _ (by decide), countArrows_arrow,
    countArrows_cons_of_ne ' ' _ (by decide)]

theorem countArrows_eq_zero (l : List Char) (h : ∀ c ∈ l, c ≠ '-') :
    countArrows l = 0 := by
  have := countArrows_append_of_no_dash l [] h
  rwa [List.append_nil] at this

theorem countArrows_renderTail (pn pv : String) (ix : Nat) (rest : List Frame)
    (t : TermErr) (dbg : Bool)
    (hrest : ∀ g ∈ rest, dashFree g.pkg_name ∧ dashFree g.pkg_version ∧ dashFree g.file)
    (ht : dashFree (termStr t dbg)) :
    countArrows (renderTail pn pv ix rest t dbg).toList = rest.length := by
  induction rest generalizing pn pv ix with
  | nil => exact countArrows_eq_zero _ ht
  | cons g rest ih =>
    obtain ⟨hgn, hgv, hgf⟩ := hrest g (List.mem_cons_self g rest)
    have hrest' := fun g' hg' => hrest g' (List.mem_cons_of_mem g hg')
    by_cases hc : g.pkg_name = pn ∧ g.pkg_version = pv
    · have htag : dashFree (if (ix + 1) % 65536 = 0 then tagStr g else "") := by
        split
        · exact dashFree_tagStr g hgn hgv
        · intro c hmem
          cases hmem
      have hstep : renderTail pn pv ix (g :: rest) t dbg =
          (if (ix + 1) % 65536 = 0 then tagStr g else "") ++ frameStr g ++
            renderTail g.pkg_name g.pkg_version ((ix + 1) % 65536) rest t dbg := by
        rw [renderTail_cons, if_pos hc]
      rw [hstep, toList_append_str, toList_append_str, List.append_assoc,
        countArrows_str_append _ _ htag, countArrows_frameStr g _ hgf,
        ih g.pkg_name g.pkg_version ((ix + 1) % 65536) hrest', List.length_cons]
    · have hstep : renderTail pn pv ix (g :: rest) t dbg =
          tagStr g ++ frameStr g ++
            renderTail g.pkg_name g.pkg_version 0 rest t dbg := by
        rw [renderTail_cons, if_neg hc]
      rw [hstep, toList_append_str, toList_append_str, List.append_assoc,
        countArrows_str_append _ _ (dashFree_tagStr g hgn hgv),
        countArrows_frameStr g _ hgf, ih g.pkg_name g.pkg_version 0 hrest',
        List.length_cons]

/-- C5: wrapping a terminal failure once per frame, `N = rest.length + 1`
times in total, yields a render containing exactly `N` occurrences of
the `"->"` separator, and the terminal text appears after the last
separator (the render ends with the terminal text). -/
theorem arrow_count_matches_wrap_count (fr : Frame) (rest : List Frame) (t : TermErr)
    (dbg : Bool)
    (hfr : dashFree fr.pkg_name ∧ dashFree fr.pkg_version ∧ dashFree fr.file)
    (hrest : ∀ g ∈ rest, dashFree g.pkg_name ∧ dashFree g.pkg_version ∧ dashFree g.file)
    (ht : dashFree (termStr t dbg)) :
    countArrows ((wrapChain fr rest t).to_string dbg 0).toList = rest.length + 1 ∧
    ∃ p : String, (wrapChain fr rest t).to_string dbg 0 = p ++ termStr t dbg := by
  obtain ⟨hn, hv, hf⟩ := hfr
  constructor
  · rw [to_string_wrapChain, if_pos rfl, toList_append_str, toList_append_str,
      List.append_assoc, countArrows_str_append _ _ (dashFree_tagStr fr hn hv),
      countArrows_frameStr fr _ hf,
      countArrows_renderTail fr.pkg_name fr.pkg_version 0 rest t dbg hrest ht]
  · obtain ⟨q, hq⟩ := renderTail_split fr.pkg_name fr.pkg_version 0 rest t
    refine ⟨tagStr fr ++ (frameStr fr ++ q), ?_⟩
    rw [to_string_wrapChain, if_pos rfl, hq dbg]
    simp [String.append_assoc]

theorem arrow_count_matches_wrap_count_witness :
    countArrows ((wrapChain ⟨"compA", "1.0", "a.rs", 10⟩
        [⟨"compB", "2.0", "b.rs", 20⟩] ⟨"x", "xd"⟩).to_string false 0).toList = 2 :=
  (arrow_count_matches_wrap_count ⟨"compA", "1.0", "a.rs", 10⟩
    [⟨"compB", "2.0", "b.rs", 20⟩] ⟨"x", "xd"⟩ false (by decide) (by decide)
    (by decide)).1

/-! ### Recorded file path -/

theorem recordedFile_strip (d : String) (sep : Char) (rel : String) :
    recordedFile d (d ++ String.singleton sep ++ rel) = rel := by
  have hsing : (String.singleton sep).length = 1 := rfl
  have hlen : d.length + 1 ≤ (d ++ String.singleton sep ++ rel).length := by
    simp [String.length_append, hsing]
  have hlist : (d ++ String.singleton sep ++ rel).toList =
      (d.toList ++ [sep]) ++ rel.toList := by
    rw [toList_append_str, toList_append_str]
    rfl
  have hdlen : (d.toList ++ [sep]).length = d.length + 1 := by
    rw [List.length_append, List.length_singleton]
    rfl
  unfold recordedFile
  rw [if_pos hlen, hlist, List.drop_left' hdlen]
  rfl

/-- C7: when the call-site file path is the component source root
followed by one separator character and a relative path, the frame
produced by `to_report` records exactly that relative path; the
recorded path is therefore independent of the checkout location. -/
theorem recorded_file_relative {α : Type} (ctx : WrapCtx) (e : ErrBox) (sep : Char)
    (rel : String)
    (h : ctx.caller_file = ctx.manifest_dir ++ String.singleton sep ++ rel) :
    (∃ rep : Report,
      @to_report α ctx (Except.error e) = Except.error rep ∧ rep.file = rel) ∧
    (∀ (d' : String) (sep' : Char),
      recordedFile d' (d' ++ String.singleton sep' ++ rel) =
        recordedFile ctx.manifest_dir ctx.caller_file) := by
  have hmain : recordedFile ctx.manifest_dir ctx.caller_file = rel := by
    rw [h]
    exact recordedFile_strip _ _ _
  refine ⟨⟨_, rfl, hmain⟩, fun d' sep' => ?_⟩
  rw [hmain, recordedFile_strip]

theorem recorded_file_relative_witness :
    ("/home/u/proj/src/lib.rs" : String) =
      "/home/u/proj" ++ String.singleton '/' ++ "src/lib.rs" ∧
    ∃ rep : Report,
      @to_report Unit ⟨"compA", "1.0", "/home/u/proj", "/home/u/proj/src/lib.rs", 7⟩
          (Except.error (.terminal ⟨"x", "xd"⟩)) = Except.error rep ∧
        rep.file = "src/lib.rs" :=
  ⟨by decide,
    (recorded_file_relative ⟨"compA", "1.0", "/home/u/proj", "/home/u/proj/src/lib.rs", 7⟩
      (.terminal ⟨"x", "xd"⟩) '/' "src/lib.rs" (by decide)).1⟩

/-! ### Purity of rendering and root-cause lookup -/

/-- State-passing form of `Report::to_string(&self, ..)` (with the same
wrapping `u16` index model): the traversal threads the chain through
explicitly and hands back, next to the rendered string, the chain as
observed after the call. -/
def Report.to_string_rw : Report → Bool → Nat → String × Report
  | .mk name version file line err, is_debug, index =>
    let res : String × ErrBox :=
      match err with
      | .report inner =>
        if inner.pkg_name = name ∧ inner.pkg_version = version then
          let r := inner.to_string_rw is_debug ((index + 1) % 65536)
          (r.1, .report r.2)
        else
          let r := inner.to_string_rw is_debug 0
          (r.1, .report r.2)
      | .terminal e => ((if is_debug then e.debug else e.display), .terminal e)
    (match index with
     | 0 =>
       "\x7b" ++ name ++ "@" ++ version ++ "\x7d " ++ file ++ ":" ++
         Nat.repr line ++ " -> " ++ res.1
     | _ + 1 => file ++ ":" ++ Nat.repr line ++ " -> " ++ res.1,
     .mk name version file line res.2)

/-- State-passing form of `Report::source(&self)`. -/
def Report.source_rw : Report → Option TermErr × Report
  | .mk n v f l (.report r) =>
    let res := r.source_rw
    (res.1, .mk n v f l (.report res.2))
  | .mk n v f l (.terminal e) => (some e, .mk n v f l (.terminal e))

theorem to_string_rw_snd : ∀ (r : Report) (dbg : Bool) (n : Nat),
    (r.to_string_rw dbg n).2 = r
  | .mk name version file line (.report inner), dbg, n => by
    by_cases h : inner.pkg_name = name ∧ inner.pkg_version = version
    · simp [Report.to_string_rw, h, to_string_rw_snd inner dbg ((n + 1) % 65536)]
    · simp [Report.to_string_rw, h, to_string_rw_snd inner dbg 0]
  | .mk name version file line (.terminal e), dbg, n => by
    simp [Report.to_string_rw]

theorem to_string_rw_fst : ∀ (r : Report) (dbg : Bool) (n : Nat),
    (r.to_string_rw dbg n).1 = r.to_string dbg n
  | .mk name version file line (.report inner), dbg, n => by
    by_cases h : inner.pkg_name = name ∧ inner.pkg_version = version
    · simp [Report.to_string_rw, Report.to_string, h,
        to_string_rw_fst inner dbg ((n + 1) % 65536)]
    · simp [Report.to_string_rw, Report.to_string, h, to_string_rw_fst inner dbg 0]
  | .mk name version file line (.terminal e), dbg, n => by
    simp [Report.to_string_rw, Report.to_string]

theorem source_rw_snd : ∀ r : Report, r.source_rw.2 = r
  | .mk n v f l (.report inner) => by
    simp [Report.source_rw, source_rw_snd inner]
  | .mk n v f l (.terminal e) => by
    simp [Report.source_rw]

theorem source_rw_fst : ∀ r : Report, r.source_rw.1 = r.source
  | .mk n v f l (.report inner) => by
    simp [Report.source_rw, Report.source, source_rw_fst inner]
  | .mk n v f l (.terminal e) => by
    simp [Report.source_rw, Report.source]

/-- C8: rendering (in either mode) and root-cause lookup are pure
read-only traversals: the chain observed after either operation is the
original chain, a second invocation on that chain returns the same
result as the first, and the results agree with the reference
functions. -/
theorem render_and_source_pure (r : Report) (dbg : Bool) (n : Nat) :
    (r.to_string_rw dbg n).2 = r ∧
    ((r.to_string_rw dbg n).2.to_string_rw dbg n).1 = (r.to_string_rw dbg n).1 ∧
    (r.to_string_rw dbg n).1 = r.to_string dbg n ∧
    r.source_rw.2 = r ∧
    (r.source_rw.2.source_rw).1 = r.source_rw.1 ∧
    r.source_rw.1 = r.source := by
  refine ⟨to_string_rw_snd r dbg n, ?_, to_string_rw_fst r dbg n,
    source_rw_snd r, ?_, source_rw_fst r⟩
  · rw [to_string_rw_snd r dbg n]
  · rw [source_rw_snd r]

/-- Counterexample to the unconditional separator count: a single wrap
(N = 1) of a terminal error whose display form itself contains `"->"`
renders with two occurrences of `"->"`, not one. -/
theorem arrow_count_counterexample :
    countArrows ((wrapChain ⟨"compA", "1.0", "a.rs", 10⟩ []
        ⟨"a->b", "d"⟩).to_string false 0).toList = 2 ∧ (2 : Nat) ≠ 1 := by
  constructor
  · decide
  · decide
